import Mathlib

/-!
Shallow embedding of the TasteFusion backend (`src/backend/main.py`).

Modelling conventions:
* A Python `dict[str, int]` filled by `d[k] = d.get(k, 0) + 1` is an
  association list `List (String × Nat)` in key-insertion order (`bump`).
* The Python call `sorted(xs, key=lambda x: x[1], reverse=True)` is the stable
  descending sort by count; it is modelled by `List.insertionSort` with
  `descCount a b := b.2 ≤ a.2`, which is sorted for that relation and stable
  (equal-count entries keep their original relative order), exactly the
  semantics guaranteed for the Python stable sort with `reverse=True`.
* Python floats are modelled as exact rationals (`Rat`); every numeric value
  the claims mention (0.5, 1.0, 0.0, 0.375) is a dyadic rational that a
  Python float represents exactly, and the divisions involved are exact.
* `datetime` timestamps are wall-clock effects, omitted from the model; no
  verified claim mentions them.
* The LLM agent is an external collaborator; it is modelled as an oracle
  function parameter returning `Except`.
-/

namespace TasteFusion

/-- Pydantic model `Meal` (timestamp omitted, see module docstring). -/
structure Meal where
  name : String
  cuisine : String
  ingredients : List String
  flavors : List String
  meal_type : String
  restaurant_name : Option String := none
  notes : Option String := none
deriving DecidableEq, Repr

/-- Pydantic model `MealInput`. -/
structure MealInput where
  name : String
  cuisine : String
  ingredients : List String := []
  flavors : List String := []
  meal_type : String
  restaurant_name : Option String := none
  notes : Option String := none
deriving DecidableEq, Repr

/-- The pydantic field constraints shared by `Meal` and `MealInput`:
`name` 1..200 chars, `cuisine` 1..100 chars, and
`meal_type` matching the anchored pattern `^(home|outside)$`
(pydantic v2 / rust-regex semantics: the whole string is `home` or
`outside`). -/
def MealInput.valid (m : MealInput) : Bool :=
  1 ≤ m.name.length && m.name.length ≤ 200 &&
  1 ≤ m.cuisine.length && m.cuisine.length ≤ 100 &&
  (m.meal_type == "home" || m.meal_type == "outside")

/-- The `Meal(...)` construction in `add_meal` / `load_sample_data`,
copying the fields of the validated input. -/
def mealOfInput (m : MealInput) : Meal :=
  { name := m.name
    cuisine := m.cuisine
    ingredients := m.ingredients
    flavors := m.flavors
    meal_type := m.meal_type
    restaurant_name := m.restaurant_name
    notes := m.notes }

/-- Pydantic model `TasteProfile` (`home_vs_outside_ratio` is a float in the
source, modelled as `Rat`). -/
structure TasteProfile where
  favorite_cuisines : List String
  preferred_flavors : List String
  common_ingredients : List String
  home_vs_outside_ratio : Rat
  meal_count : Nat
deriving DecidableEq, Repr

/-- Models `d[k] = d.get(k, 0) + 1` on an insertion-ordered dict: increment the
entry of `k` in place if present, else append `(k, 1)` at the end. -/
def bump : List (String × Nat) → String → List (String × Nat)
  | [], k => [(k, 1)]
  | (k', v) :: rest, k =>
      if k == k' then (k', v + 1) :: rest else (k', v) :: bump rest k

/-- The single pass of `get_taste_profile` over `meals_db` building the three
frequency dicts and the home-meal counter (lines 106-124 of the source). -/
def profileCounts (db : List Meal) :
    List (String × Nat) × List (String × Nat) × List (String × Nat) × Nat :=
  db.foldl
    (fun acc meal =>
      (bump acc.1 meal.cuisine,
       meal.flavors.foldl bump acc.2.1,
       meal.ingredients.foldl bump acc.2.2.1,
       if meal.meal_type == "home" then acc.2.2.2 + 1 else acc.2.2.2))
    ([], [], [], 0)

/-- The sort order of `sorted(xs, key=lambda x: x[1], reverse=True)`:
by count, descending. -/
def descCount (a b : String × Nat) : Prop := b.2 ≤ a.2

instance : DecidableRel descCount := fun a b =>
  inferInstanceAs (Decidable (b.2 ≤ a.2))

instance : IsTotal (String × Nat) descCount :=
  ⟨fun a b => Nat.le_total b.2 a.2⟩

instance : IsTrans (String × Nat) descCount :=
  ⟨fun _ _ _ hab hbc => Nat.le_trans hbc hab⟩

/-- Models `sorted(d.items(), key=lambda x: x[1], reverse=True)[:k]` followed by
taking the first components. -/
def topNames (k : Nat) (counts : List (String × Nat)) : List String :=
  ((counts.insertionSort descCount).take k).map Prod.fst

/-- The function `get_taste_profile` (lines 95-137 of the source). -/
def get_taste_profile (db : List Meal) : TasteProfile :=
  if db = [] then
    { favorite_cuisines := []
      preferred_flavors := []
      common_ingredients := []
      home_vs_outside_ratio := 0.5
      meal_count := 0 }
  else
    let pc := profileCounts db
    { favorite_cuisines := topNames 5 pc.1
      preferred_flavors := topNames 5 pc.2.1
      common_ingredients := topNames 10 pc.2.2.1
      home_vs_outside_ratio := (pc.2.2.2 : Rat) / (db.length : Rat)
      meal_count := db.length }

/-- Endpoint `POST /meals` (`add_meal`, lines 236-262): pydantic validates the
`MealInput` (rejecting the request before the handler runs on violation);
on success the handler constructs the `Meal` and appends it to `meals_db`.
The pair is (handler outcome, resulting store). -/
def add_meal (db : List Meal) (inp : MealInput) : Except String Meal × List Meal :=
  if inp.valid then
    let meal := mealOfInput inp
    (Except.ok meal, db ++ [meal])
  else
    (Except.error "ValidationError", db)

/-- Endpoint `GET /meals` (`get_meals`, lines 264-270): returns `meals_db` as is,
in insertion order. -/
def get_meals (db : List Meal) : List Meal := db

/-- Endpoint DELETE /meals/index (`delete_meal`, lines 272-287): 404 when
`index < 0 or index >= len(meals_db)`, else `meals_db.pop(index)`.
The pair is (handler outcome, resulting store). -/
def delete_meal (db : List Meal) (index : Int) : Except String Meal × List Meal :=
  if index < 0 ∨ (db.length : Int) ≤ index then
    (Except.error "Meal not found", db)
  else
    match db[index.toNat]? with
    | some m => (Except.ok m, db.eraseIdx index.toNat)
    | none => (Except.error "Meal not found", db)

/-- Pydantic model `FusionRequest`. -/
structure FusionRequest where
  fusion_style : Option String := none
  dietary_restrictions : List String := []
  difficulty : String := "medium"
  cooking_time : Option Int := none
deriving DecidableEq, Repr

/-- Python truthiness of an `Optional[str]`: `None` and `""` are falsy. -/
def strTruthy : Option String → Bool
  | none => false
  | some s => !(s == "")

/-- Python truthiness of an `Optional[int]`: `None` and `0` are falsy. -/
def intTruthy : Option Int → Bool
  | none => false
  | some n => !(n == 0)

/-- The `prompt_parts` construction of `generate_fusion_recipe`
(lines 308-321): conditional appends followed by `" ".join(prompt_parts)`. -/
def build_request_prompt (req : FusionRequest) : String :=
  let parts := ["Create a unique fusion recipe for me."]
  let parts := if strTruthy req.fusion_style then
    parts ++ ["Fusion style: " ++ req.fusion_style.getD ""] else parts
  let parts := if !req.dietary_restrictions.isEmpty then
    parts ++ ["Dietary restrictions: " ++
      String.intercalate ", " req.dietary_restrictions] else parts
  let parts := parts ++ ["Difficulty level: " ++ req.difficulty]
  let parts := if intTruthy req.cooking_time then
    parts ++ ["Maximum cooking time: " ++
      toString (req.cooking_time.getD 0) ++ " minutes"] else parts
  String.intercalate " " parts

/-- Pydantic model `FusionRecipe` (the LLM output schema). -/
structure FusionRecipe where
  name : String
  description : String
  fusion_of : List String
  ingredients : List String
  instructions : List String
  prep_time : Int
  cook_time : Int
  difficulty : String
  flavor_profile : List String
  why_youll_love_it : String
deriving DecidableEq, Repr

/-- Pydantic model `UserPreferences`, the deps handed to the agent. -/
structure UserPreferences where
  meals : List Meal
  taste_profile : TasteProfile
deriving DecidableEq, Repr

/-- The fixed day list of `generate_weekly_menu` (line 352). -/
def weekDays : List String :=
  ["Monday", "Tuesday", "Wednesday", "Thursday", "Friday", "Saturday", "Sunday"]

/-- The per-day prompt of `generate_weekly_menu` (line 355). -/
def dayPrompt (day : String) : String :=
  "Create a unique fusion recipe for " ++ day ++
    ". Make it different from typical weekday meals if it\x27s a weekend."

/-- The `for day in days` loop of `generate_weekly_menu` (lines 354-361):
runs the agent on each per-day prompt in order, appending `(day, recipe)`
pairs; a raised error aborts the whole loop, discarding the accumulator. -/
def menuLoop (agent : String → Except String FusionRecipe) :
    List String → List (String × FusionRecipe) →
    Except String (List (String × FusionRecipe))
  | [], acc => Except.ok acc
  | d :: ds, acc =>
    match agent (dayPrompt d) with
    | Except.ok r => menuLoop agent ds (acc ++ [(d, r)])
    | Except.error e => Except.error e

/-- Endpoint `POST /generate-weekly-menu` (`generate_weekly_menu`, lines 341-373):
computes the taste profile once, builds the deps, then runs the day loop.
`agent` is the external LLM oracle, taking the deps and the user prompt. -/
def generate_weekly_menu (db : List Meal)
    (agent : UserPreferences → String → Except String FusionRecipe) :
    Except String (List (String × FusionRecipe)) :=
  let taste_profile := get_taste_profile db
  let user_prefs : UserPreferences := ⟨db, taste_profile⟩
  menuLoop (agent user_prefs) weekDays []

/-- The 8 fixed sample meals of `load_sample_data` (lines 380-443). -/
def sample_meals : List MealInput :=
  [{ name := "Butter Chicken", cuisine := "Indian",
     ingredients := ["chicken", "butter", "tomatoes", "cream", "garam masala"],
     flavors := ["creamy", "spicy", "rich"], meal_type := "home",
     notes := some "Mom\x27s recipe" },
   { name := "Margherita Pizza", cuisine := "Italian",
     ingredients := ["dough", "tomatoes", "mozzarella", "basil"],
     flavors := ["savory", "cheesy", "herby"], meal_type := "outside",
     restaurant_name := some "Domino\x27s" },
   { name := "Pad Thai", cuisine := "Thai",
     ingredients := ["rice noodles", "shrimp", "peanuts", "tamarind", "bean sprouts"],
     flavors := ["sweet", "sour", "savory", "nutty"], meal_type := "outside",
     restaurant_name := some "Thai Express" },
   { name := "Dal Makhani", cuisine := "Indian",
     ingredients := ["black lentils", "butter", "cream", "tomatoes", "spices"],
     flavors := ["creamy", "smoky", "rich"], meal_type := "home" },
   { name := "Sushi Roll", cuisine := "Japanese",
     ingredients := ["rice", "nori", "salmon", "avocado", "cucumber"],
     flavors := ["fresh", "umami", "light"], meal_type := "outside",
     restaurant_name := some "Sushi House" },
   { name := "Tacos Al Pastor", cuisine := "Mexican",
     ingredients := ["pork", "pineapple", "onions", "cilantro", "tortillas"],
     flavors := ["spicy", "sweet", "tangy"], meal_type := "outside",
     restaurant_name := some "Taco Bell" },
   { name := "Palak Paneer", cuisine := "Indian",
     ingredients := ["spinach", "paneer", "onions", "garlic", "cream"],
     flavors := ["creamy", "mild", "healthy"], meal_type := "home" },
   { name := "Kung Pao Chicken", cuisine := "Chinese",
     ingredients := ["chicken", "peanuts", "dried chilies", "soy sauce", "vegetables"],
     flavors := ["spicy", "sweet", "crunchy"], meal_type := "outside",
     restaurant_name := some "Wok Express" }]

/-- Endpoint `POST /load-sample-data` (`load_sample_data`, lines 377-463): constructs
a `Meal` from each sample input and appends it to `meals_db`; the reported
`total_meals` is `len(meals_db)` afterwards. -/
def load_sample_data (db : List Meal) : List Meal × Nat :=
  let db := db ++ sample_meals.map mealOfInput
  (db, db.length)

/-! ### Correctness of the insertion-ordered frequency dict -/

/-- The value stored for key `k` (0 when absent). -/
def cnt (m : List (String × Nat)) (k : String) : Nat :=
  (m.lookup k).getD 0

/-- One step of first-seen key collection. -/
def seenStep (acc : List String) (k : String) : List String :=
  if k ∈ acc then acc else acc ++ [k]

/-- The keys of a stream, in order of first appearance. -/
def firstSeen (ks : List String) : List String :=
  ks.foldl seenStep []

/-- The frequency dict built from a stream of keys. -/
def countKeys (ks : List String) : List (String × Nat) :=
  ks.foldl bump []

theorem cnt_bump (m : List (String × Nat)) (k k' : String) :
    cnt (bump m k) k' = if k' = k then cnt m k' + 1 else cnt m k' := by
  induction m with
  | nil =>
    by_cases h : k' = k
    · simp [bump, cnt, List.lookup_cons, h]
    · have hb : (k' == k) = false := by simpa using h
      simp [bump, cnt, List.lookup_cons, h, hb]
  | cons p rest ih =>
    obtain ⟨a, v⟩ := p
    by_cases hk : k = a
    · subst hk
      by_cases h : k' = k
      · simp [bump, cnt, List.lookup_cons, h]
      · have hb : (k' == k) = false := by simpa using h
        simp [bump, cnt, List.lookup_cons, h, hb]
    · have hk' : (k == a) = false := by simpa using hk
      by_cases h : k' = a
      · subst h
        simp [bump, cnt, List.lookup_cons, hk', Ne.symm hk]
      · have h' : (k' == a) = false := by simpa using h
        by_cases hkk : k' = k <;>
          simpa [bump, cnt, List.lookup_cons, hk', h', hkk] using ih

theorem keys_bump (m : List (String × Nat)) (k : String) :
    (bump m k).map Prod.fst = seenStep (m.map Prod.fst) k := by
  induction m with
  | nil => simp [bump, seenStep]
  | cons p rest ih =>
    obtain ⟨a, v⟩ := p
    by_cases hk : k = a
    · subst hk
      simp [bump, seenStep]
    · have hk' : (k == a) = false := by simpa using hk
      by_cases hmem : k ∈ rest.map Prod.fst <;>
        simp [bump, seenStep, hk', hk, hmem, ih]

theorem foldl_bump_keys (ks : List String) :
    ∀ m : List (String × Nat),
      (ks.foldl bump m).map Prod.fst = ks.foldl seenStep (m.map Prod.fst) := by
  induction ks with
  | nil => intro m; rfl
  | cons k ks ih =>
    intro m
    simp only [List.foldl_cons, ih (bump m k), keys_bump]

theorem countKeys_keys (ks : List String) :
    (countKeys ks).map Prod.fst = firstSeen ks :=
  foldl_bump_keys ks []

theorem cnt_foldl_bump (ks : List String) :
    ∀ (m : List (String × Nat)) (k : String),
      cnt (ks.foldl bump m) k = cnt m k + ks.count k := by
  induction ks with
  | nil => intro m k; simp
  | cons a ks ih =>
    intro m k
    rw [List.foldl_cons, ih (bump m a) k, cnt_bump, List.count_cons]
    by_cases h : k = a
    · simp [h]
      omega
    · have h' : (a == k) = false := by simpa using Ne.symm h
      simp [h, h']

theorem cnt_countKeys (ks : List String) (k : String) :
    cnt (countKeys ks) k = ks.count k := by
  simpa [countKeys, cnt] using cnt_foldl_bump ks [] k

theorem foldl_seenStep_nodup (ks : List String) :
    ∀ acc : List String, acc.Nodup → (ks.foldl seenStep acc).Nodup := by
  induction ks with
  | nil => intro acc h; exact h
  | cons k ks ih =>
    intro acc h
    rw [List.foldl_cons]
    refine ih _ ?_
    by_cases hmem : k ∈ acc
    · simpa [seenStep, hmem] using h
    · simp [seenStep, hmem, List.nodup_append, h]

theorem firstSeen_nodup (ks : List String) : (firstSeen ks).Nodup :=
  foldl_seenStep_nodup ks [] List.nodup_nil

theorem countKeys_keys_nodup (ks : List String) :
    ((countKeys ks).map Prod.fst).Nodup := by
  rw [countKeys_keys]
  exact firstSeen_nodup ks

theorem mem_cnt (m : List (String × Nat)) :
    (m.map Prod.fst).Nodup → ∀ p ∈ m, p.2 = cnt m p.1 := by
  induction m with
  | nil => intro _ p hp; cases hp
  | cons q rest ih =>
    intro hnd p hp
    obtain ⟨a, v⟩ := q
    rw [List.map_cons, List.nodup_cons] at hnd
    rcases List.mem_cons.mp hp with hp | hp
    · simp [hp, cnt, List.lookup_cons]
    · have hne : p.1 ≠ a := by
        intro hcontra
        have hmem : p.1 ∈ rest.map Prod.fst := List.mem_map_of_mem Prod.fst hp
        rw [hcontra] at hmem
        exact hnd.1 hmem
      have hne' : (p.1 == a) = false := by simpa using hne
      simpa [cnt, List.lookup_cons, hne'] using ih hnd.2 p hp

theorem mem_countKeys_count (ks : List String) (p : String × Nat)
    (hp : p ∈ countKeys ks) : p.2 = ks.count p.1 := by
  rw [mem_cnt (countKeys ks) (countKeys_keys_nodup ks) p hp, cnt_countKeys]

/-! ### Stability of the descending sort -/

theorem pair_sublist_of_mem {α : Type} {l : List α} {a b : α}
    (ha : a ∈ l) (hb : b ∈ l) (hne : a ≠ b) :
    [a, b].Sublist l ∨ [b, a].Sublist l := by
  induction l with
  | nil => cases ha
  | cons x xs ih =>
    rcases List.mem_cons.mp ha with rfl | ha'
    · have hb' : b ∈ xs := by
        rcases List.mem_cons.mp hb with rfl | hb'
        · exact absurd rfl hne
        · exact hb'
      exact Or.inl (List.cons_sublist_cons.mpr (List.singleton_sublist.mpr hb'))
    · rcases List.mem_cons.mp hb with rfl | hb'
      · exact Or.inr (List.cons_sublist_cons.mpr (List.singleton_sublist.mpr ha'))
      · rcases ih ha' hb' with h | h
        · exact Or.inl (h.cons x)
        · exact Or.inr (h.cons x)

theorem eq_of_pair_sublist_both {α : Type} {l : List α} (hl : l.Nodup) {a b : α}
    (h1 : [a, b].Sublist l) (h2 : [b, a].Sublist l) : a = b := by
  induction l with
  | nil => cases h1
  | cons x xs ih =>
    rw [List.nodup_cons] at hl
    cases h1 with
    | cons _ h1' =>
      cases h2 with
      | cons _ h2' => exact ih hl.2 h1' h2'
      | cons₂ _ h2' =>
        have hbx : b ∈ xs := h1'.subset (by simp)
        exact absurd hbx hl.1
    | cons₂ _ h1' =>
      cases h2 with
      | cons _ h2' =>
        have hax : a ∈ xs := h2'.subset (by simp)
        exact absurd hax hl.1
      | cons₂ _ h2' => rfl

theorem sorted_counts_spec (m : List (String × Nat))
    (hnd : (m.map Prod.fst).Nodup) :
    (m.insertionSort descCount).Pairwise
      (fun p q => q.2 ≤ p.2 ∧ (p.2 = q.2 → [p, q].Sublist m)) := by
  rw [List.pairwise_iff_forall_sublist]
  intro p q hsub
  have hsorted : descCount p q :=
    List.pairwise_iff_forall_sublist.mp (List.sorted_insertionSort descCount m) hsub
  refine ⟨hsorted, fun heq => ?_⟩
  have hmnd : m.Nodup := hnd.of_map Prod.fst
  have hsnd : (m.insertionSort descCount).Nodup :=
    (List.perm_insertionSort descCount m).nodup_iff.mpr hmnd
  have hne : p ≠ q := List.pairwise_iff_forall_sublist.mp hsnd hsub
  have hp : p ∈ m := (List.mem_insertionSort descCount).mp (hsub.subset (by simp))
  have hq : q ∈ m := (List.mem_insertionSort descCount).mp (hsub.subset (by simp))
  rcases pair_sublist_of_mem hp hq hne with h | h
  · exact h
  · have hqp : descCount q p := le_of_eq heq
    have := List.pair_sublist_insertionSort hqp h
    exact absurd (eq_of_pair_sublist_both hsnd hsub this) hne

/-- The ranking property of `topNames` over a frequency dict built from a
key stream: at most `k` names, occurrence counts weakly decreasing, and
equal-count names in first-seen order. -/
theorem topNames_countKeys_pairwise (k : Nat) (ks : List String) :
    (topNames k (countKeys ks)).Pairwise
      (fun a b => ks.count b ≤ ks.count a ∧
        (ks.count a = ks.count b → [a, b].Sublist (firstSeen ks))) := by
  have hnd := countKeys_keys_nodup ks
  have hsorted := sorted_counts_spec (countKeys ks) hnd
  have htake :
      (((countKeys ks).insertionSort descCount).take k).Pairwise
        (fun p q => q.2 ≤ p.2 ∧ (p.2 = q.2 → [p, q].Sublist (countKeys ks))) :=
    hsorted.sublist (List.take_sublist k _)
  rw [topNames, List.pairwise_map]
  refine htake.imp_of_mem ?_
  intro p q hp hq hpq
  have hp' : p ∈ countKeys ks :=
    (List.mem_insertionSort descCount).mp ((List.take_sublist k _).subset hp)
  have hq' : q ∈ countKeys ks :=
    (List.mem_insertionSort descCount).mp ((List.take_sublist k _).subset hq)
  have hpv := mem_countKeys_count ks p hp'
  have hqv := mem_countKeys_count ks q hq'
  refine ⟨by rw [← hpv, ← hqv]; exact hpq.1, fun heq => ?_⟩
  have hsub := hpq.2 (by rw [hpv, hqv]; exact heq)
  have := hsub.map Prod.fst
  rwa [countKeys_keys ks] at this

theorem topNames_length (k : Nat) (m : List (String × Nat)) :
    (topNames k m).length ≤ k := by
  simp only [topNames, List.length_map, List.length_take]
  exact min_le_left _ _

/-! ### The single aggregation pass, component by component -/

theorem profileCounts_loop (db : List Meal) :
    ∀ (cs fs igs : List (String × Nat)) (h : Nat),
      db.foldl
        (fun acc meal =>
          (bump acc.1 meal.cuisine,
           meal.flavors.foldl bump acc.2.1,
           meal.ingredients.foldl bump acc.2.2.1,
           if meal.meal_type == "home" then acc.2.2.2 + 1 else acc.2.2.2))
        (cs, fs, igs, h) =
      ((db.map (fun m => m.cuisine)).foldl bump cs,
       ((db.map (fun m => m.flavors)).flatten).foldl bump fs,
       ((db.map (fun m => m.ingredients)).flatten).foldl bump igs,
       h + db.countP (fun m => m.meal_type == "home")) := by
  induction db with
  | nil => intro cs fs igs h; simp
  | cons meal db ih =>
    intro cs fs igs h
    rw [List.foldl_cons, ih]
    simp only [List.map_cons, List.flatten_cons, List.foldl_cons,
      List.foldl_append, List.countP_cons]
    by_cases hm : meal.meal_type == "home"
    · simp only [hm, if_true]
      refine congrArg _ (congrArg _ (congrArg _ ?_))
      omega
    · simp only [Bool.not_eq_true] at hm
      simp only [hm, if_false, Bool.false_eq_true]
      refine congrArg _ (congrArg _ (congrArg _ ?_))
      omega

theorem profileCounts_eq (db : List Meal) :
    profileCounts db =
      (countKeys (db.map (fun m => m.cuisine)),
       countKeys ((db.map (fun m => m.flavors)).flatten),
       countKeys ((db.map (fun m => m.ingredients)).flatten),
       db.countP (fun m => m.meal_type == "home")) := by
  rw [profileCounts, profileCounts_loop]
  simp [countKeys]

theorem favorite_cuisines_eq (db : List Meal) :
    (get_taste_profile db).favorite_cuisines =
      topNames 5 (countKeys (db.map (fun m => m.cuisine))) := by
  by_cases h : db = []
  · subst h; rfl
  · simp [get_taste_profile, h, profileCounts_eq]

theorem preferred_flavors_eq (db : List Meal) :
    (get_taste_profile db).preferred_flavors =
      topNames 5 (countKeys ((db.map (fun m => m.flavors)).flatten)) := by
  by_cases h : db = []
  · subst h; rfl
  · simp [get_taste_profile, h, profileCounts_eq]

theorem common_ingredients_eq (db : List Meal) :
    (get_taste_profile db).common_ingredients =
      topNames 10 (countKeys ((db.map (fun m => m.ingredients)).flatten)) := by
  by_cases h : db = []
  · subst h; rfl
  · simp [get_taste_profile, h, profileCounts_eq]

theorem meal_count_eq (db : List Meal) :
    (get_taste_profile db).meal_count = db.length := by
  by_cases h : db = []
  · subst h; rfl
  · simp [get_taste_profile, h]

theorem home_ratio_eq (db : List Meal) (h : db ≠ []) :
    (get_taste_profile db).home_vs_outside_ratio =
      ((db.countP (fun m => m.meal_type == "home") : Rat)) / (db.length : Rat) := by
  simp [get_taste_profile, h, profileCounts_eq]

/-! ### Claims -/

/-- A store whose cuisines are [Indian, Indian, Italian]. -/
def threeCuisineMeals : List Meal :=
  [{ name := "a", cuisine := "Indian", ingredients := [], flavors := [],
     meal_type := "home" },
   { name := "b", cuisine := "Indian", ingredients := [], flavors := [],
     meal_type := "home" },
   { name := "c", cuisine := "Italian", ingredients := [], flavors := [],
     meal_type := "outside" }]

/-- C1: for every meal store, the profile fields favorite_cuisines,
preferred_flavors, and common_ingredients contain at most 5, 5, and 10
names, ranked by occurrence count descending, with equal-frequency names
in stable first-seen insertion order (`[a, b].Sublist (firstSeen stream)`
says `a` was first seen before `b`); in particular, for meals with cuisines
[Indian, Indian, Italian], favorite_cuisines is exactly
["Indian", "Italian"], so "Indian" is top and precedes "Italian". -/
theorem taste_profile_ranking (db : List Meal) :
    (get_taste_profile db).favorite_cuisines.length ≤ 5 ∧
    (get_taste_profile db).preferred_flavors.length ≤ 5 ∧
    (get_taste_profile db).common_ingredients.length ≤ 10 ∧
    (get_taste_profile db).favorite_cuisines.Pairwise (fun a b =>
      (db.map (fun m => m.cuisine)).count b ≤
        (db.map (fun m => m.cuisine)).count a ∧
      ((db.map (fun m => m.cuisine)).count a =
          (db.map (fun m => m.cuisine)).count b →
        [a, b].Sublist (firstSeen (db.map (fun m => m.cuisine))))) ∧
    (get_taste_profile db).preferred_flavors.Pairwise (fun a b =>
      ((db.map (fun m => m.flavors)).flatten).count b ≤
        ((db.map (fun m => m.flavors)).flatten).count a ∧
      (((db.map (fun m => m.flavors)).flatten).count a =
          ((db.map (fun m => m.flavors)).flatten).count b →
        [a, b].Sublist (firstSeen ((db.map (fun m => m.flavors)).flatten)))) ∧
    (get_taste_profile db).common_ingredients.Pairwise (fun a b =>
      ((db.map (fun m => m.ingredients)).flatten).count b ≤
        ((db.map (fun m => m.ingredients)).flatten).count a ∧
      (((db.map (fun m => m.ingredients)).flatten).count a =
          ((db.map (fun m => m.ingredients)).flatten).count b →
        [a, b].Sublist (firstSeen ((db.map (fun m => m.ingredients)).flatten)))) ∧
    (get_taste_profile threeCuisineMeals).favorite_cuisines = ["Indian", "Italian"] := by
  refine ⟨?_, ?_, ?_, ?_, ?_, ?_, by decide⟩
  · rw [favorite_cuisines_eq]; exact topNames_length 5 _
  · rw [preferred_flavors_eq]; exact topNames_length 5 _
  · rw [common_ingredients_eq]; exact topNames_length 10 _
  · rw [favorite_cuisines_eq]; exact topNames_countKeys_pairwise 5 _
  · rw [preferred_flavors_eq]; exact topNames_countKeys_pairwise 5 _
  · rw [common_ingredients_eq]; exact topNames_countKeys_pairwise 10 _

/-- C2: the taste profile of the empty store is the default profile:
ratio 0.5, count 0, all three lists empty. -/
theorem taste_profile_empty_default :
    get_taste_profile [] =
      { favorite_cuisines := []
        preferred_flavors := []
        common_ingredients := []
        home_vs_outside_ratio := 0.5
        meal_count := 0 } := rfl

/-- C3: for every non-empty store, home_vs_outside_ratio is the number of
home meals divided by the total; all-home stores give 1 and all-outside
stores give 0. -/
theorem home_outside_ratio_spec (db : List Meal) (h : db ≠ []) :
    (get_taste_profile db).home_vs_outside_ratio =
      ((db.countP (fun m => m.meal_type == "home") : Rat)) / (db.length : Rat) ∧
    ((∀ m ∈ db, m.meal_type = "home") →
      (get_taste_profile db).home_vs_outside_ratio = 1) ∧
    ((∀ m ∈ db, m.meal_type = "outside") →
      (get_taste_profile db).home_vs_outside_ratio = 0) := by
  refine ⟨home_ratio_eq db h, fun hall => ?_, fun hall => ?_⟩
  · rw [home_ratio_eq db h]
    have hcount : db.countP (fun m => m.meal_type == "home") = db.length := by
      rw [List.countP_eq_length]
      intro m hm
      simpa using hall m hm
    have hlen : db.length ≠ 0 := by
      simpa [List.length_eq_zero] using h
    rw [hcount]
    exact div_self (by exact_mod_cast hlen)
  · rw [home_ratio_eq db h]
    have hcount : db.countP (fun m => m.meal_type == "home") = 0 := by
      rw [List.countP_eq_zero]
      intro m hm
      simp [hall m hm]
    rw [hcount]
    simp

/-- C3 witness: a concrete all-home singleton store has ratio 1, and the
ratio formula evaluates to 1/1. -/
theorem home_outside_ratio_spec_witness :
    (get_taste_profile threeCuisineMeals).home_vs_outside_ratio =
      ((threeCuisineMeals.countP (fun m => m.meal_type == "home") : Rat)) /
        (threeCuisineMeals.length : Rat) :=
  (home_outside_ratio_spec threeCuisineMeals (by decide)).1

/-- C4: `delete_meal` fails with the not-found error exactly when the index
is outside [0, length), leaving the store unchanged; in range, it returns
the record at that zero-based position and removes it. -/
theorem delete_meal_spec (db : List Meal) (index : Int) :
    ((index < 0 ∨ (db.length : Int) ≤ index) →
      delete_meal db index = (Except.error "Meal not found", db)) ∧
    (0 ≤ index → index < (db.length : Int) →
      ∃ h : index.toNat < db.length,
        delete_meal db index =
          (Except.ok (db.get ⟨index.toNat, h⟩), db.eraseIdx index.toNat)) := by
  constructor
  · intro h
    simp only [delete_meal, if_pos h]
  · intro h0 hlt
    have hnat : index.toNat < db.length := by omega
    refine ⟨hnat, ?_⟩
    have hcond : ¬(index < 0 ∨ (db.length : Int) ≤ index) := by omega
    rw [delete_meal, if_neg hcond, List.getElem?_eq_getElem hnat]
    simp [List.get_eq_getElem]

/-- C4 witness: deleting index 0 from a three-meal store succeeds and
returns the head; deleting index 0 from the empty store fails and leaves
it empty. -/
theorem delete_meal_spec_witness :
    (∃ h : (0 : Int).toNat < threeCuisineMeals.length,
      delete_meal threeCuisineMeals 0 =
        (Except.ok (threeCuisineMeals.get ⟨(0 : Int).toNat, h⟩),
         threeCuisineMeals.eraseIdx (0 : Int).toNat)) ∧
    delete_meal ([] : List Meal) 0 = (Except.error "Meal not found", []) :=
  ⟨(delete_meal_spec threeCuisineMeals 0).2 (by decide) (by decide),
   (delete_meal_spec [] 0).1 (by decide)⟩

/-- C5: `add_meal` fails with a validation error (leaving the store
unchanged) whenever `meal_type` is outside {home, outside} or the length
constraints on `name` (1-200) or `cuisine` (1-100) are violated; on valid
input it appends exactly the one constructed record at the end. -/
theorem add_meal_spec (db : List Meal) (inp : MealInput) :
    ((¬(inp.meal_type = "home" ∨ inp.meal_type = "outside") ∨
      inp.name.length < 1 ∨ 200 < inp.name.length ∨
      inp.cuisine.length < 1 ∨ 100 < inp.cuisine.length) →
      add_meal db inp = (Except.error "ValidationError", db)) ∧
    ((inp.meal_type = "home" ∨ inp.meal_type = "outside") →
      1 ≤ inp.name.length → inp.name.length ≤ 200 →
      1 ≤ inp.cuisine.length → inp.cuisine.length ≤ 100 →
      add_meal db inp = (Except.ok (mealOfInput inp), db ++ [mealOfInput inp])) := by
  constructor
  · intro h
    have hv : inp.valid = false := by
      apply Bool.eq_false_iff.mpr
      intro hv
      simp only [MealInput.valid, Bool.and_eq_true, Bool.or_eq_true,
        decide_eq_true_eq, beq_iff_eq] at hv
      rcases h with h | h | h | h | h
      · exact h (Or.imp id id hv.2)
      all_goals omega
    simp [add_meal, hv]
  · intro htype h1 h2 h3 h4
    have hv : inp.valid = true := by
      simp only [MealInput.valid, Bool.and_eq_true, Bool.or_eq_true,
        decide_eq_true_eq, beq_iff_eq]
      exact ⟨⟨⟨⟨h1, h2⟩, h3⟩, h4⟩, htype⟩
    simp [add_meal, hv]

/-- C5 witness: a "brunch" input is rejected with the store unchanged, and
a valid input is appended at the end. -/
theorem add_meal_spec_witness :
    add_meal [] { name := "Brunch Bowl", cuisine := "Fusion", meal_type := "brunch" } =
      (Except.error "ValidationError", []) ∧
    add_meal []
        { name := "Dosa", cuisine := "Indian", meal_type := "home" } =
      (Except.ok (mealOfInput { name := "Dosa", cuisine := "Indian", meal_type := "home" }),
       [mealOfInput { name := "Dosa", cuisine := "Indian", meal_type := "home" }]) :=
  ⟨(add_meal_spec [] _).1 (Or.inl (by decide)),
   (add_meal_spec [] _).2 (Or.inl (by decide))
     (by decide) (by decide) (by decide) (by decide)⟩

/-- The store produced by a sequence of `add` calls (keeping only the
successfully stored records, as the global `meals_db` does). -/
def addAll (inputs : List MealInput) (db : List Meal) : List Meal :=
  inputs.foldl (fun db inp => (add_meal db inp).2) db

theorem addAll_valid (inputs : List MealInput) :
    ∀ db : List Meal, (∀ i ∈ inputs, i.valid = true) →
      addAll inputs db = db ++ inputs.map mealOfInput := by
  induction inputs with
  | nil => intro db _; simp [addAll]
  | cons inp inputs ih =>
    intro db h
    have hv : inp.valid = true := h inp (by simp)
    have hrest : ∀ i ∈ inputs, i.valid = true := fun i hi => h i (by simp [hi])
    simp only [addAll, List.foldl_cons] at *
    rw [show (add_meal db inp).2 = db ++ [mealOfInput inp] by simp [add_meal, hv]]
    rw [ih (db ++ [mealOfInput inp]) hrest]
    simp

/-- C6: for every sequence of valid `add` calls starting from the empty
store, `get_meals` returns exactly the added records in insertion order,
and the profile field meal_count equals the sequence length. -/
theorem add_sequence_order_and_count (inputs : List MealInput)
    (h : ∀ i ∈ inputs, i.valid = true) :
    get_meals (addAll inputs []) = inputs.map mealOfInput ∧
    (get_taste_profile (addAll inputs [])).meal_count = inputs.length := by
  have heq := addAll_valid inputs [] h
  constructor
  · simpa [get_meals] using heq
  · rw [meal_count_eq, heq]
    simp

/-- C6 witness: two concrete valid adds are listed in insertion order with
meal_count 2. -/
theorem add_sequence_order_and_count_witness :
    get_meals (addAll
        [{ name := "Dosa", cuisine := "Indian", meal_type := "home" },
         { name := "Ramen", cuisine := "Japanese", meal_type := "outside" }] []) =
      [mealOfInput { name := "Dosa", cuisine := "Indian", meal_type := "home" },
       mealOfInput { name := "Ramen", cuisine := "Japanese", meal_type := "outside" }] ∧
    (get_taste_profile (addAll
        [{ name := "Dosa", cuisine := "Indian", meal_type := "home" },
         { name := "Ramen", cuisine := "Japanese", meal_type := "outside" }] [])).meal_count = 2 :=
  add_sequence_order_and_count _ (by decide)

/-- C9: after loading the 8 fixed sample meals into an empty store, the
profile has meal_count 8, home ratio 3/8 (= 0.375), and "Indian" first in
favorite_cuisines with 3 occurrences. -/
theorem sample_data_profile :
    (get_taste_profile (load_sample_data []).1).meal_count = 8 ∧
    (get_taste_profile (load_sample_data []).1).home_vs_outside_ratio = 3 / 8 ∧
    (get_taste_profile (load_sample_data []).1).favorite_cuisines.head? =
      some "Indian" ∧
    ((load_sample_data []).1.map (fun m => m.cuisine)).count "Indian" = 3 := by
  refine ⟨by decide, ?_, by decide, by decide⟩
  rw [home_ratio_eq _ (by decide)]
  rw [show (load_sample_data []).1.countP (fun m => m.meal_type == "home") = 3
      from by decide]
  rw [show (load_sample_data []).1.length = 8 from by decide]
  norm_num

/-- C10: `load_sample_data` appends its 8 demo meals to the existing store:
the length grows by exactly 8, the first n records are unchanged and in
their original order, and the reported total is n + 8. -/
theorem load_sample_data_appends (db : List Meal) :
    (load_sample_data db).1 = db ++ sample_meals.map mealOfInput ∧
    (load_sample_data db).1.length = db.length + 8 ∧
    (load_sample_data db).1.take db.length = db ∧
    (load_sample_data db).2 = db.length + 8 := by
  refine ⟨rfl, ?_, ?_, ?_⟩
  · simp [load_sample_data, sample_meals]
  · simp [load_sample_data, List.take_left]
  · simp [load_sample_data, sample_meals]

/-- Modelled from the claim wording for C7: the prompt as the space-joined
concatenation of the base instruction, a fusion-style clause if a style is
specified (present), a comma-joined dietary-restrictions clause if the list
is non-empty, the mandatory difficulty clause, and a maximum-cooking-time
clause if a cooking time is specified (present). -/
def claimPrompt (req : FusionRequest) : String :=
  String.intercalate " "
    (["Create a unique fusion recipe for me."] ++
     (match req.fusion_style with
      | some s => ["Fusion style: " ++ s]
      | none => []) ++
     (if req.dietary_restrictions.isEmpty then []
      else ["Dietary restrictions: " ++
        String.intercalate ", " req.dietary_restrictions]) ++
     ["Difficulty level: " ++ req.difficulty] ++
     (match req.cooking_time with
      | some t => ["Maximum cooking time: " ++ toString t ++ " minutes"]
      | none => []))

/-- The amended wording of C7: the fusion-style clause appears only for a
specified NON-EMPTY style, and the cooking-time clause only for a specified
NON-ZERO time (Python truthiness of the optional fields); all else as in
the claim. -/
def amendedPrompt (req : FusionRequest) : String :=
  String.intercalate " "
    (["Create a unique fusion recipe for me."] ++
     (match req.fusion_style with
      | some s => if s = "" then [] else ["Fusion style: " ++ s]
      | none => []) ++
     (if req.dietary_restrictions.isEmpty then []
      else ["Dietary restrictions: " ++
        String.intercalate ", " req.dietary_restrictions]) ++
     ["Difficulty level: " ++ req.difficulty] ++
     (match req.cooking_time with
      | some t => if t = 0 then [] else ["Maximum cooking time: " ++ toString t ++ " minutes"]
      | none => []))

/-- C7 counterexample: with a specified-but-empty style and a specified
cooking time of 0 minutes, the code omits both clauses, so the prompt is
not the concatenation the claim describes. -/
theorem build_request_prompt_claim_false :
    build_request_prompt
        { fusion_style := some "", dietary_restrictions := [],
          difficulty := "medium", cooking_time := some 0 } ≠
      claimPrompt
        { fusion_style := some "", dietary_restrictions := [],
          difficulty := "medium", cooking_time := some 0 } := by
  decide

/-- C7 amended: the prompt is the space-joined concatenation of the base
instruction, the style clause when a non-empty style is specified, the
dietary clause when the list is non-empty, the difficulty clause, and the
time clause when a non-zero cooking time is specified; in particular, with
difficulty "medium", no restrictions, no style and no time, the prompt is
exactly the base instruction followed by the medium-difficulty clause. -/
theorem build_request_prompt_amended (req : FusionRequest) :
    build_request_prompt req = amendedPrompt req ∧
    build_request_prompt
        { fusion_style := none, dietary_restrictions := [],
          difficulty := "medium", cooking_time := none } =
      "Create a unique fusion recipe for me. Difficulty level: medium" := by
  refine ⟨?_, by decide⟩
  obtain ⟨fs, dr, diff, ct⟩ := req
  cases fs with
  | none =>
    cases ct with
    | none =>
      cases dr <;>
        simp [build_request_prompt, amendedPrompt, strTruthy, intTruthy]
    | some t =>
      by_cases ht : t = 0 <;> cases dr <;>
        simp [build_request_prompt, amendedPrompt, strTruthy, intTruthy, ht]
  | some s =>
    by_cases hs : s = "" <;>
      [skip; skip] <;>
      cases ct with
      | none =>
        cases dr <;>
          simp [build_request_prompt, amendedPrompt, strTruthy, intTruthy, hs]
      | some t =>
        by_cases ht : t = 0 <;> cases dr <;>
          simp [build_request_prompt, amendedPrompt, strTruthy, intTruthy, hs, ht]

theorem menuLoop_ok (agent1 : String → Except String FusionRecipe) :
    ∀ (ds : List String) (acc rs : List (String × FusionRecipe)),
      menuLoop agent1 ds acc = Except.ok rs →
      ∃ t, rs = acc ++ t ∧ t.map Prod.fst = ds ∧
        ∀ p ∈ t, agent1 (dayPrompt p.1) = Except.ok p.2 := by
  intro ds
  induction ds with
  | nil =>
    intro acc rs h
    refine ⟨[], ?_, rfl, by simp⟩
    have : acc = rs := by simpa [menuLoop] using h
    simp [this]
  | cons d ds ih =>
    intro acc rs h
    rw [menuLoop] at h
    cases hag : agent1 (dayPrompt d) with
    | error e => rw [hag] at h; cases h
    | ok r =>
      rw [hag] at h
      obtain ⟨t, ht1, ht2, ht3⟩ := ih (acc ++ [(d, r)]) rs h
      refine ⟨(d, r) :: t, by simpa using ht1, by simp [ht2], ?_⟩
      intro p hp
      rcases List.mem_cons.mp hp with rfl | hp'
      · exact hag
      · exact ht3 p hp'

theorem menuLoop_error (agent1 : String → Except String FusionRecipe) :
    ∀ (ds : List String) (acc : List (String × FusionRecipe)),
      (∃ d ∈ ds, ∃ e, agent1 (dayPrompt d) = Except.error e) →
      ∃ e, menuLoop agent1 ds acc = Except.error e := by
  intro ds
  induction ds with
  | nil =>
    rintro acc ⟨d, hd, -⟩
    cases hd
  | cons d ds ih =>
    rintro acc ⟨d0, hd0, e0, he0⟩
    rw [menuLoop]
    cases hag : agent1 (dayPrompt d) with
    | error e => exact ⟨e, rfl⟩
    | ok r =>
      rcases List.mem_cons.mp hd0 with rfl | hd0'
      · rw [hag] at he0; cases he0
      · exact ih _ ⟨d0, hd0', e0, he0⟩

/-- C8: on success, `generate_weekly_menu` yields one (day, recipe) pair
for each of Monday..Sunday in that order, every pair coming from the agent
called with the one taste profile computed from the store (the profile is
computed once, before the loop, and that same value is what every call
receives); if the generation of any day fails, the whole operation returns an
error, with no partial results. -/
theorem generate_weekly_menu_spec (db : List Meal)
    (agent : UserPreferences → String → Except String FusionRecipe) :
    (∀ rs, generate_weekly_menu db agent = Except.ok rs →
      rs.map Prod.fst = weekDays ∧
      ∀ p ∈ rs, agent ⟨db, get_taste_profile db⟩ (dayPrompt p.1) = Except.ok p.2) ∧
    ((∃ d ∈ weekDays, ∃ e,
        agent ⟨db, get_taste_profile db⟩ (dayPrompt d) = Except.error e) →
      ∃ e, generate_weekly_menu db agent = Except.error e) := by
  constructor
  · intro rs h
    simp only [generate_weekly_menu] at h
    obtain ⟨t, ht1, ht2, ht3⟩ :=
      menuLoop_ok (agent ⟨db, get_taste_profile db⟩) weekDays [] rs h
    rw [List.nil_append] at ht1
    subst ht1
    exact ⟨ht2, ht3⟩
  · intro hex
    simpa only [generate_weekly_menu] using
      menuLoop_error (agent ⟨db, get_taste_profile db⟩) weekDays [] hex

/-- A concrete recipe for the C8 witness. -/
def demoRecipe : FusionRecipe :=
  { name := "Demo", description := "demo", fusion_of := [], ingredients := [],
    instructions := [], prep_time := 1, cook_time := 1, difficulty := "easy",
    flavor_profile := [], why_youll_love_it := "demo" }

/-- C8 witness: with an always-succeeding agent the menu lists the seven
days in order, and with an always-failing agent the whole call errors. -/
theorem generate_weekly_menu_spec_witness :
    ((weekDays.map fun d => (d, demoRecipe)).map Prod.fst = weekDays) ∧
    (∃ e, generate_weekly_menu [] (fun _ _ => Except.error "boom") =
      Except.error e) :=
  ⟨((generate_weekly_menu_spec [] (fun _ _ => Except.ok demoRecipe)).1
      (weekDays.map fun d => (d, demoRecipe)) rfl).1,
   (generate_weekly_menu_spec [] (fun _ _ => Except.error "boom")).2
     ⟨"Monday", by decide, "boom", rfl⟩⟩

end TasteFusion
